import Mathlib

/-!
Verification of the pushme-backend donation pipeline against its
specification.  Each section shallowly embeds one source module:

* `Signature` embeds `src/pushmebackend/src/utils/signature.ts`
  (nonce challenge issuance and single-use signature verification).
* `Payment` embeds `verifyTransaction` (config/solana, `src/unnamed/part_002`)
  and `verifyPayment` (services/paymentService).
* `Donate` embeds the duplicate handling and price selection of the
  `POST /donate` handler (`src/pushmebackend/src/routes/donate.ts`).
* `DonationConfirm` embeds the ledger insert of the `POST /donation/confirm`
  handler (`src/pushmebackend/src/routes/donation.ts`).
* `Overlay` embeds the websocket hub (`src/pushmebackend/src/ws/overlaySocket.ts`).
* `Relay` embeds `sendSignedTransaction` and `confirmTransactionWithRetry`
  (`src/pushmebackend/src/services/solana.ts`).

External collaborators (the chain RPC, the ed25519 library, base58/hex
decoding, the storage layer) are taken as explicit function parameters, so
every theorem quantifies over their behaviour.  JavaScript numbers are
modelled as rationals; machine-level floating point rounding is not part of
any claim below.

The file is organised with all definitions first, followed by all theorems.
-/

/-- Donation types (types/DonationTypes.ts): closed enumeration. -/
inductive DonationType
  | text
  | gif
  | image
  | audio
  | video
deriving DecidableEq, Repr

namespace Signature

/-- Value stored in the nonce map (signature.ts line 7): the wallet the nonce
was issued for and the issuance timestamp in milliseconds. -/
structure StoredNonce where
  wallet : String
  timestamp : Int
deriving DecidableEq, Repr

/-- The nonce store.  The source keys a `Map` by the string
`nonce:{wallet}:{nonce}`; two keys collide exactly when wallet and nonce both
coincide, so the store is modelled as a partial map from the pair. -/
def NonceStore : Type := (String × String) → Option StoredNonce

/-- Expiry window, signature.ts line 9: five minutes in milliseconds. -/
def NONCE_EXPIRY_MS : Int := 5 * 60 * 1000

/-- Canonical challenge message (signature.ts lines 28 and 87), byte-for-byte
the template used at issuance and at verification. -/
def challengeMessage (wallet nonce : String) (timestamp : Int) : String :=
  "Sign this message to authenticate with PushMe.\n\nWallet: " ++ wallet ++
    "\nNonce: " ++ nonce ++ "\nTimestamp: " ++ toString timestamp

/-- `generateNonce` (signature.ts lines 22-37): stores the challenge under the
(wallet, nonce) key.  The random nonce and `Date.now()` are inputs here. -/
def generateNonce (store : NonceStore) (wallet nonce : String) (now : Int) :
    NonceStore × String :=
  (fun k => if k = (wallet, nonce) then some ⟨wallet, now⟩ else store k,
   challengeMessage wallet nonce now)

/-- `deleteNonce` (signature.ts lines 68-72). -/
def deleteNonce (store : NonceStore) (wallet nonce : String) : NonceStore :=
  fun k => if k = (wallet, nonce) then none else store k

/-- Result of `verifyNonce`: the boolean outcome together with the store
after the call (the source mutates the module-level map in place). -/
structure NonceCheck where
  ok : Bool
  store : NonceStore

/-- `verifyNonce` (signature.ts lines 39-66): looks the challenge up, checks
the stored wallet, the stored timestamp against the supplied one, and the
expiry window against `now`; an expired challenge is deleted on the spot. -/
def verifyNonce (store : NonceStore) (now : Int) (wallet nonce : String)
    (timestamp : Int) : NonceCheck :=
  match store (wallet, nonce) with
  | none => ⟨false, store⟩
  | some stored =>
    if stored.wallet ≠ wallet then ⟨false, store⟩
    else if stored.timestamp ≠ timestamp then ⟨false, store⟩
    else if NONCE_EXPIRY_MS < now - timestamp then
      ⟨false, deleteNonce store wallet nonce⟩
    else ⟨true, store⟩

/-- External cryptographic collaborators of `verifySignature`:
`decodeSig` stands for the hex-or-base58 signature decoding of lines 91-104
(`none` models a decoding throw), `parsePk` for
`new PublicKey(wallet).toBytes()` of lines 107-114 (`none` models a throw),
and `verify` for `nacl.sign.detached.verify` on the encoded message. -/
structure Crypto where
  decodeSig : String → Option (List Nat)
  parsePk : String → Option (List Nat)
  verify : String → List Nat → List Nat → Bool

/-- Result of `verifySignature`: outcome plus the store after the call. -/
structure VerifyOut where
  ok : Bool
  store : NonceStore

/-- `verifySignature` (signature.ts lines 74-132): nonce check, signature
decoding, public-key decoding, ed25519 verification; only a successful
verification deletes the nonce (line 121). -/
def verifySignature (c : Crypto) (store : NonceStore) (now : Int)
    (wallet signature nonce : String) (timestamp : Int) : VerifyOut :=
  let nc := verifyNonce store now wallet nonce timestamp
  if nc.ok = false then ⟨false, nc.store⟩
  else
    match c.decodeSig signature with
    | none => ⟨false, nc.store⟩
    | some sigBytes =>
      match c.parsePk wallet with
      | none => ⟨false, nc.store⟩
      | some pkBytes =>
        if c.verify (challengeMessage wallet nonce timestamp) sigBytes pkBytes then
          ⟨true, deleteNonce nc.store wallet nonce⟩
        else ⟨false, nc.store⟩

/-- Concrete crypto collaborator that accepts every signature. -/
def cryptoYes : Crypto :=
  ⟨fun _ => some [], fun _ => some [], fun _ _ _ => true⟩

/-- Concrete crypto collaborator that decodes but rejects every signature. -/
def cryptoNo : Crypto :=
  ⟨fun _ => some [], fun _ => some [], fun _ _ _ => false⟩

/-- Concrete store holding one challenge for wallet `w`, nonce `n`, issued at
time 0. -/
def storeW : NonceStore :=
  fun k => if k = ("w", "n") then some ⟨"w", 0⟩ else none

end Signature

namespace Payment

/-- Chain commitment levels appearing in the backend RPC calls. -/
inductive Commitment
  | confirmed
  | finalized
deriving DecidableEq, Repr

/-- Transaction metadata as consumed by `verifyTransaction`
(`src/unnamed/part_002` lines 27-33): on-chain error flag and pre/post
balances in lamports, indexed like the account keys. -/
structure TxMeta where
  err : Option String
  preBalances : List ℚ
  postBalances : List ℚ
deriving DecidableEq, Repr

/-- Settled transaction view: metadata plus account keys.  A `none` entry
models an account-key slot failing the `!accountKey || !accountKey.equals`
guard (part_002 line 45), which the loop skips. -/
structure TxData where
  meta : Option TxMeta
  accountKeys : List (Option String)
deriving DecidableEq, Repr

/-- Rejection reasons of `verifyTransaction` and `verifyPayment`, one
constructor per distinct error string of the source; the exact strings are
recovered by `VerifyError.message`. -/
inductive VerifyError
  | notFound
  | txFailed
  | insufficient (expected got : ℚ)
  | recipientMismatch
  | senderMismatch
  | treasuryUnconfigured
deriving DecidableEq, Repr

/-- The exact error strings of the source (part_002 lines 23, 28, 53, 67, 71
and paymentService). -/
def VerifyError.message : VerifyError → String
  | .notFound => "Transaction not found"
  | .txFailed => "Transaction failed or not confirmed"
  | .insufficient expected got =>
      "Insufficient amount. Expected " ++ toString expected ++ " SOL, got " ++
        toString got ++ " SOL"
  | .recipientMismatch => "Transaction recipient does not match treasury wallet"
  | .senderMismatch => "Transaction sender does not match wallet address"
  | .treasuryUnconfigured => "Treasury wallet not configured"

/-- Result shape of `verifyTransaction`. -/
structure VerifyOutcome where
  verified : Bool
  error : Option VerifyError
deriving DecidableEq, Repr

/-- Balance increase of account `i`, converted from lamports to SOL
(part_002 line 49). -/
def solDelta (pre post : List ℚ) (i : Nat) : ℚ :=
  (post.getD i 0 - pre.getD i 0) / 1000000000

/-- Balance decrease of account `i`, converted from lamports to SOL
(part_002 line 59). -/
def solDecrease (pre post : List ℚ) (i : Nat) : ℚ :=
  (pre.getD i 0 - post.getD i 0) / 1000000000

/-- Sender-side update of one loop iteration (part_002 lines 57-63):
`senderFound` becomes true when this key is the expected sender and its
balance decrease reaches the expected amount; otherwise it is kept. -/
def senderFoundUpd (expected : ℚ) (sender : Option String) (key : String)
    (dec : ℚ) (senFound : Bool) : Bool :=
  if sender = some key then (if expected ≤ dec then true else senFound)
  else senFound

/-- The account loop of `verifyTransaction` (part_002 lines 40-72): iterates
the account keys with index `i`, early-returns on a treasury occurrence whose
delta is below the expected amount, and ends with the recipient and sender
checks of lines 66-72. -/
def checkAccounts (expected : ℚ) (recipient : String) (sender : Option String)
    (pre post : List ℚ) :
    List (Option String) → Nat → Bool → Bool → VerifyOutcome
  | [], _, recFound, senFound =>
    if recFound = false then ⟨false, some .recipientMismatch⟩
    else if sender.isSome ∧ senFound = false then ⟨false, some .senderMismatch⟩
    else ⟨true, none⟩
  | accountKey :: rest, i, recFound, senFound =>
    match accountKey with
    | none =>
      checkAccounts expected recipient sender pre post rest (i + 1) recFound senFound
    | some key =>
      if key = recipient then
        if expected ≤ solDelta pre post i then
          checkAccounts expected recipient sender pre post rest (i + 1) true
            (senderFoundUpd expected sender key (solDecrease pre post i) senFound)
        else ⟨false, some (.insufficient expected (solDelta pre post i))⟩
      else
        checkAccounts expected recipient sender pre post rest (i + 1) recFound
          (senderFoundUpd expected sender key (solDecrease pre post i) senFound)

/-- `verifyTransaction` (part_002 lines 10-79): fetches the transaction at
confirmed commitment (line 18), rejects a missing transaction and one whose
metadata is absent or carries an on-chain error, then runs the account loop.
`getTx` is the chain client already applied to the transaction hash. -/
def verifyTransaction (getTx : Commitment → Option TxData) (expected : ℚ)
    (recipient : String) (sender : Option String) : VerifyOutcome :=
  match getTx .confirmed with
  | none => ⟨false, some .notFound⟩
  | some tx =>
    match tx.meta with
    | none => ⟨false, some .txFailed⟩
    | some m =>
      if m.err.isSome then ⟨false, some .txFailed⟩
      else
        checkAccounts expected recipient sender m.preBalances m.postBalances
          tx.accountKeys 0 false false

/-- Result shape of `verifyPayment`. -/
structure PaymentOutcome where
  verified : Bool
  amount : Option ℚ
  error : Option VerifyError
deriving DecidableEq, Repr

/-- `verifyPayment` (services/paymentService.ts, second document of
overlayEventService.ts lines 120-157): derives the expected amount from the
fixed price table, runs `verifyTransaction` with the treasury as recipient
and the authenticated wallet as sender, and reports the fixed price — not the
raw delta — as the verified amount on success. -/
def verifyPayment (getTx : Commitment → Option TxData)
    (prices : DonationType → ℚ) (treasury : Option String)
    (dtype : DonationType) (wallet : String) : PaymentOutcome :=
  match treasury with
  | none => ⟨false, none, some .treasuryUnconfigured⟩
  | some t =>
    let expected := prices dtype
    let v := verifyTransaction getTx expected t (some wallet)
    if v.verified then ⟨true, some expected, none⟩
    else ⟨false, none, v.error⟩

/-- The fixed price table `DONATION_PRICES` of the DonationTypes module
(embedded as the second document of types/OverlayEvents.ts, lines 57-63):
text 0.01, gif 0.02, image 0.03, audio 0.05, video 0.1 SOL — immutable
server-side configuration, never client input.  General theorems quantify
over an arbitrary table; concrete witnesses use this one. -/
def DONATION_PRICES : DonationType → ℚ
  | .text => 1 / 100
  | .gif => 2 / 100
  | .image => 3 / 100
  | .audio => 5 / 100
  | .video => 1 / 10

/-- Settled, error-free transaction whose treasury account `T` gains exactly
0.03 SOL (30000000 lamports) while the sender account `W` shows no balance
decrease. -/
def txSenderZero : TxData :=
  ⟨some ⟨none, [0, 0], [30000000, 0]⟩, [some ("T"), some ("W")]⟩

/-- Settled, error-free transaction whose treasury account `T` gains 0.03 SOL
and whose sender account `W` loses 0.04 SOL. -/
def txGood : TxData :=
  ⟨some ⟨none, [0, 40000000], [30000000, 0]⟩, [some ("T"), some ("W")]⟩

/-- Chain client reporting `txSenderZero` at every commitment. -/
def chainBoth : Commitment → Option TxData := fun _ => some txSenderZero

/-- Chain client reporting `txGood` at every commitment. -/
def chainGood : Commitment → Option TxData := fun _ => some txGood

/-- Chain client reporting `txSenderZero` only at finalized commitment and
nothing at confirmed commitment. -/
def chainFinalizedOnly : Commitment → Option TxData :=
  fun c => if c = .finalized then some txSenderZero else none

end Payment

namespace Donate

/-- A row of the donations table as inserted by the `POST /donate` handler
(donate.ts lines 137-150). -/
structure DonationRow where
  wallet : String
  username : Option String
  dtype : DonationType
  mediaUrl : Option String
  text : Option String
  price : ℚ
  txHash : String
deriving DecidableEq, Repr

/-- The donations ledger as visible through the storage interface. -/
abbrev Ledger : Type := List DonationRow

/-- Structured storage error, carrying the Postgres error code and message
consumed by the error translation of donate.ts lines 152-167. -/
structure StorageErr where
  code : String
  msg : String
deriving DecidableEq, Repr

/-- Modelled from the spec: the storage contract `insertUnique` — the
donations-table insert guarded by a uniqueness constraint on `tx_hash`; the
storage implementation itself is an external collaborator.  A conflicting
insert yields the Postgres unique-violation error code 23505. -/
def insertUnique (db : Ledger) (row : DonationRow) : Except StorageErr Ledger :=
  if db.any (fun r => r.txHash == row.txHash) then
    Except.error ⟨"23505", "duplicate key value violates unique constraint"⟩
  else Except.ok (db ++ [row])

/-- JavaScript `includes` on strings: substring containment. -/
def strIncludes (s sub : String) : Bool :=
  decide (sub.toList <:+: s.toList)

/-- MIME type fallback chain of donate.ts lines 123-126. -/
def mimeFor : DonationType → String
  | .image => "image/png"
  | .gif => "image/gif"
  | .audio => "audio/mpeg"
  | .video => "video/mp4"
  | .text => "application/octet-stream"

/-- Media URL selection of donate.ts lines 112-129: data URLs and http URLs
are stored as-is, anything else is wrapped as a base64 data URL. -/
def mediaUrlFor (dtype : DonationType) (content : String) : String :=
  if content.startsWith ("data:") then content
  else if content.startsWith ("http") then content
  else "data:" ++ mimeFor dtype ++ ";base64," ++ content

/-- JavaScript `a || b` on an optional number (donate.ts line 133): `a` is
used unless it is absent or zero (both falsy in JavaScript). -/
def jsOrPrice (amount : Option ℚ) (fallback : ℚ) : ℚ :=
  match amount with
  | none => fallback
  | some a => if a = 0 then fallback else a

/-- Responses of the `POST /donate` handler for the modelled segment.
`duplicate` is the single 409 response body of lines 70-76 and 155-161; both
source occurrences are the identical JSON object. -/
inductive DonateResponse
  | duplicate
  | paymentRejected (error : Option Payment.VerifyError)
  | invalidText
  | saved (row : DonationRow)
  | storageError (msg : String)
deriving DecidableEq, Repr

/-- HTTP status of each modelled response (donate.ts lines 72, 84, 102, 157,
163, 188). -/
def DonateResponse.status : DonateResponse → Nat
  | .duplicate => 409
  | .paymentRejected _ => 403
  | .invalidText => 400
  | .saved _ => 200
  | .storageError _ => 500

/-- The `POST /donate` handler from the duplicate fast path through the
insert and its error translation (donate.ts lines 62-167), for a validated
payload whose wallet matches the token.  `dbCheck` is the ledger state seen
by the fast-path existence check (lines 64-68) and `dbIns` the state seen by
the insert (lines 137-150); they differ exactly when a concurrent submission
commits between the two queries.  `pv` is the completed result of
`verifyPayment` (line 80) and `validateText` stands for
`utils/filters.validateTextContent` (none = invalid, some = sanitized). -/
def donateCore (dbCheck dbIns : Ledger) (prices : DonationType → ℚ)
    (pv : Payment.PaymentOutcome) (validateText : String → Option String)
    (wallet : String) (username : Option String) (dtype : DonationType)
    (content : String) (txHash : String) : DonateResponse × Ledger :=
  if dbCheck.any (fun r => r.txHash == txHash) then (.duplicate, dbIns)
  else if pv.verified = false then (.paymentRejected pv.error, dbIns)
  else
    let contentRes : Except Unit (Option String × Option String) :=
      if dtype = .text then
        match validateText content with
        | none => Except.error ()
        | some sanitized => Except.ok (some sanitized, none)
      else Except.ok (none, some (mediaUrlFor dtype content))
    match contentRes with
    | Except.error _ => (.invalidText, dbIns)
    | Except.ok (text, mediaUrl) =>
      let price := jsOrPrice pv.amount (prices dtype)
      let row : DonationRow :=
        ⟨wallet, username, dtype, mediaUrl, text, price, txHash⟩
      match insertUnique dbIns row with
      | Except.ok db2 => (.saved row, db2)
      | Except.error e =>
        if e.code == "23505" || strIncludes e.msg ("duplicate") ||
            strIncludes e.msg ("unique") then
          (.duplicate, dbIns)
        else (.storageError e.msg, dbIns)

/-- Concrete ledger row for witnesses: an already-recorded text donation with
transaction signature `sig1`. -/
def rowSig1 : DonationRow :=
  ⟨"W", some ("alice"), .text, none, some ("hi"), 1 / 100, "sig1"⟩

end Donate

namespace DonationConfirm

/-- A row of the donations table as inserted by `POST /donation/confirm`
(donation.ts lines 204-218). -/
structure ConfirmRow where
  wallet : String
  username : String
  dtype : DonationType
  text : Option String
  mediaUrl : Option String
  price : ℚ
  txHash : String
deriving DecidableEq, Repr

/-- The insert record built by donation.ts lines 204-218: the `price` field
receives the request-body `amount` unchanged (line 212) — no payment
verifier is consulted on this path.  `dtype` is the result of
`detectMediaType(mediaUrl)` (lines 15-33), which never reads `amount`. -/
def confirmInsertRow (wallet username : String) (sanitizedText : Option String)
    (mediaUrl : Option String) (dtype : DonationType) (amount : ℚ)
    (txSignature : String) : ConfirmRow :=
  ⟨wallet, username, dtype, sanitizedText, mediaUrl, amount, txSignature⟩

end DonationConfirm

namespace Overlay

/-- The `WebSocket.OPEN` readyState constant of the ws library. -/
def WS_OPEN : Nat := 1

/-- One connection as seen by the hub: the auth flag set by the auth frame,
the transport readyState, and whether `send` would throw during the current
broadcast. -/
structure Client where
  isAuthenticated : Bool
  readyState : Nat
  sendThrows : Bool
deriving DecidableEq, Repr

/-- The broadcast send guard of overlaySocket.ts line 130. -/
def sendAttempted (c : Client) : Bool :=
  c.isAuthenticated && (c.readyState == WS_OPEN)

/-- `broadcastToOverlay` (overlaySocket.ts lines 120-145) over the snapshot
`clients` of the connected set: the first component collects the connections
the event was delivered to, the second the connected set after the broadcast
— a connection is removed (line 136) exactly when its send threw. -/
def broadcastToOverlay (clients : List Client) : List Client × List Client :=
  (clients.filter (fun c => sendAttempted c && !c.sendThrows),
   clients.filter (fun c => !(sendAttempted c && c.sendThrows)))

/-- Inbound frame after the `JSON.parse` of overlaySocket.ts line 28:
`parsed ftype key` is a JSON value with its `type` and `key` fields;
`malformed` is a message on which `JSON.parse` throws. -/
inductive ClientFrame
  | parsed (ftype : Option String) (key : Option String)
  | malformed
deriving DecidableEq, Repr

/-- Effect of the connection message handler on one connection. -/
structure HandleResult where
  conn : Client
  addedToSet : Bool
  sentEvents : List String
  closeCalled : Bool
deriving DecidableEq, Repr

/-- The connection message handler (overlaySocket.ts lines 26-73): an auth
frame is checked against the configured secret (authenticating or closing);
any other parsed frame from an unauthenticated client closes the connection
(lines 62-66); a message on which JSON parsing throws is swallowed by the
catch of lines 70-72 and has no effect. -/
def handleMessage (secret : String) (c : Client) (frame : ClientFrame) :
    HandleResult :=
  match frame with
  | .malformed => ⟨c, false, [], false⟩
  | .parsed ftype key =>
    if ftype = some ("auth") then
      if key = some secret then
        ⟨{ c with isAuthenticated := true }, true, ["AUTH_SUCCESS"], false⟩
      else ⟨c, false, ["AUTH_FAILED"], true⟩
    else if c.isAuthenticated = false then ⟨c, false, [], true⟩
    else ⟨c, false, [], false⟩

/-- An authenticated connection whose transport is already closed
(`readyState = 3`, the CLOSED constant). -/
def staleClient : Client := ⟨true, 3, false⟩

/-- An unauthenticated open connection. -/
def freshClient : Client := ⟨false, WS_OPEN, false⟩

/-- An authenticated open connection whose send succeeds. -/
def authOpen : Client := ⟨true, WS_OPEN, false⟩

/-- An authenticated open connection whose send throws. -/
def throwingClient : Client := ⟨true, WS_OPEN, true⟩

end Overlay

namespace Relay

/-- Outcome of one `confirmTransaction` RPC poll (solana.ts line 114):
the call throws (network error), or returns with an on-chain error in
`confirmation.value.err`, or returns clean. -/
inductive PollOutcome
  | netError (msg : String)
  | chainErr (errJson : String)
  | success
deriving DecidableEq, Repr

/-- Result shape of `confirmTransactionWithRetry` (solana.ts line 111). -/
structure ConfirmResult where
  confirmed : Bool
  error : Option String
deriving DecidableEq, Repr

/-- Observable trace of one confirm loop: number of `confirmTransaction`
calls made and the sleeps (ms) taken between them. -/
structure ConfirmTrace where
  polls : Nat
  delays : List Nat
deriving DecidableEq, Repr

/-- The confirm loop of `confirmTransactionWithRetry` (solana.ts lines
112-134): `remaining` counts the loop iterations left (entered with 10) and
`attempt` is the 1-based loop counter, so `remaining = 1` holds exactly when
`attempt === maxAttempts`.  An on-chain error returns immediately (lines
116-121); a thrown poll on the last iteration returns its message (lines
125-129); otherwise the loop sleeps 2s and retries (line 132).  The
`remaining = 0` base mirrors the unreachable fallthrough of lines 136-139. -/
def confirmGo (poll : Nat → PollOutcome) : Nat → Nat → ConfirmResult × ConfirmTrace
  | _, 0 => (⟨false, some ("Transaction confirmation timeout")⟩, ⟨0, []⟩)
  | attempt, remaining + 1 =>
    match poll attempt with
    | .success => (⟨true, none⟩, ⟨1, []⟩)
    | .chainErr errJson =>
      (⟨false, some ("Transaction failed: " ++ errJson)⟩, ⟨1, []⟩)
    | .netError msg =>
      if remaining = 0 then (⟨false, some msg⟩, ⟨1, []⟩)
      else
        let r := confirmGo poll (attempt + 1) remaining
        (r.1, ⟨r.2.polls + 1, 2000 :: r.2.delays⟩)

/-- `confirmTransactionWithRetry` (solana.ts lines 108-140) with its default
`maxAttempts = 10`. -/
def confirmTransactionWithRetry (poll : Nat → PollOutcome) :
    ConfirmResult × ConfirmTrace :=
  confirmGo poll 1 10

/-- Outcome of one `sendRawTransaction` broadcast (solana.ts line 71):
the call throws, or returns a signature. -/
inductive BroadcastOutcome
  | throws (msg : String)
  | ok (signature : String)
deriving DecidableEq, Repr

/-- JavaScript `a || b` where `a` is an optional string: the fallback is used
when `a` is absent or the empty string, both falsy (solana.ts lines 85 and
102). -/
def jsOrString (a : Option String) (fallback : String) : String :=
  match a with
  | none => fallback
  | some s => if s = "" then fallback else s

/-- One iteration of the outer retry loop (solana.ts lines 64-98):
deserialization (lines 67-68; `deser` models `Transaction.from`, which
behaves identically on every attempt), broadcast, then the confirm loop; an
unconfirmed result is thrown with `confirmation.error || default` (line 85).
Returns the attempt result, whether a broadcast happened, and the confirm
trace when the confirm loop ran. -/
def attemptRun (deser : Except String Unit) (bc : Nat → BroadcastOutcome)
    (poll : Nat → Nat → PollOutcome) (attempt : Nat) :
    Except String String × Bool × Option ConfirmTrace :=
  match deser with
  | Except.error e => (Except.error e, false, none)
  | Except.ok _ =>
    match bc attempt with
    | .throws msg => (Except.error msg, true, none)
    | .ok signature =>
      let c := confirmTransactionWithRetry (poll attempt)
      if c.1.confirmed then (Except.ok signature, true, some c.2)
      else
        (Except.error (jsOrString c.1.error ("Transaction confirmation failed")),
         true, some c.2)

/-- Result of one attempt: first projection of `attemptRun`. -/
def attemptResult (deser : Except String Unit) (bc : Nat → BroadcastOutcome)
    (poll : Nat → Nat → PollOutcome) (attempt : Nat) : Except String String :=
  (attemptRun deser bc poll attempt).1

/-- Observable trace of a relay call: loop iterations used, broadcasts made,
confirm traces of the attempts that reached confirmation, and the backoff
sleeps (ms) taken between failed attempts. -/
structure RelayTrace where
  attempts : Nat
  broadcasts : Nat
  confirms : List ConfirmTrace
  backoffs : List Nat
deriving DecidableEq, Repr

/-- The outer retry loop of `sendSignedTransaction` (solana.ts lines 61-102):
`remaining` counts the iterations left (entered with `maxRetries = 3`), so
`remaining = 1` holds exactly when `attempt === maxRetries` and no backoff
sleep follows a failure (lines 94-97); the first confirmed result returns
immediately (lines 79-83); after the loop the last observed error is thrown
(line 102, with the same falsy-fallback as the base case here). -/
def relayGo (deser : Except String Unit) (bc : Nat → BroadcastOutcome)
    (poll : Nat → Nat → PollOutcome) :
    Nat → Nat → Option String → Except String (String × Bool) × RelayTrace
  | _, 0, lastError =>
    (Except.error (jsOrString lastError ("Transaction failed after retries")),
     ⟨0, 0, [], []⟩)
  | attempt, remaining + 1, _ =>
    match attemptRun deser bc poll attempt with
    | (Except.ok signature, didB, ct) =>
      (Except.ok (signature, true), ⟨1, if didB then 1 else 0, ct.toList, []⟩)
    | (Except.error e, didB, ct) =>
      if remaining = 0 then
        (Except.error e, ⟨1, if didB then 1 else 0, ct.toList, []⟩)
      else
        let r := relayGo deser bc poll (attempt + 1) remaining (some e)
        (r.1, ⟨r.2.attempts + 1, r.2.broadcasts + (if didB then 1 else 0),
          ct.toList ++ r.2.confirms, (1000 * attempt) :: r.2.backoffs⟩)

/-- `sendSignedTransaction` (solana.ts lines 58-103): the retry loop entered
with `maxRetries = 3`. -/
def sendSignedTransaction (deser : Except String Unit)
    (bc : Nat → BroadcastOutcome) (poll : Nat → Nat → PollOutcome) :
    Except String (String × Bool) × RelayTrace :=
  relayGo deser bc poll 1 3 none

/-- Broadcast collaborator that always returns the signature `sig`. -/
def bcOk : Nat → BroadcastOutcome := fun _ => .ok ("sig")

/-- Poll collaborator whose every poll confirms. -/
def pollOk : Nat → Nat → PollOutcome := fun _ _ => .success

end Relay

-- ===================================================================
-- Theorems
-- ===================================================================

namespace Signature

theorem verifyNonce_ok_iff (store : NonceStore) (now : Int) (wallet nonce : String)
    (timestamp : Int) :
    (verifyNonce store now wallet nonce timestamp).ok = true ↔
      ∃ st, store (wallet, nonce) = some st ∧ st.wallet = wallet ∧
        st.timestamp = timestamp ∧ now - timestamp ≤ NONCE_EXPIRY_MS := by
  unfold verifyNonce
  cases hst : store (wallet, nonce) with
  | none => simp
  | some st =>
    by_cases hw : st.wallet = wallet
    · by_cases ht : st.timestamp = timestamp
      · by_cases hexp : NONCE_EXPIRY_MS < now - timestamp
        · simp [hw, ht, hexp]
          omega
        · simp [hw, ht, hexp]
          omega
      · simp [hw, ht]
    · simp [hw]

theorem verifyNonce_ok_store (store : NonceStore) (now : Int) (wallet nonce : String)
    (timestamp : Int) (h : (verifyNonce store now wallet nonce timestamp).ok = true) :
    (verifyNonce store now wallet nonce timestamp).store = store := by
  unfold verifyNonce at h ⊢
  cases hst : store (wallet, nonce) with
  | none => rfl
  | some st =>
    rw [hst] at h
    by_cases hw : st.wallet = wallet
    · by_cases ht : st.timestamp = timestamp
      · by_cases hexp : NONCE_EXPIRY_MS < now - timestamp
        · simp [hw, ht, hexp] at h
        · simp [hw, ht, hexp]
      · simp [hw, ht] at h
    · simp [hw] at h

theorem verifySignature_eq_of_nonce_ok (c : Crypto) (store : NonceStore) (now : Int)
    (wallet signature nonce : String) (timestamp : Int)
    (h : (verifyNonce store now wallet nonce timestamp).ok = true) :
    verifySignature c store now wallet signature nonce timestamp =
      match c.decodeSig signature with
      | none => ⟨false, store⟩
      | some sigBytes =>
        match c.parsePk wallet with
        | none => ⟨false, store⟩
        | some pkBytes =>
          if c.verify (challengeMessage wallet nonce timestamp) sigBytes pkBytes then
            ⟨true, deleteNonce store wallet nonce⟩
          else ⟨false, store⟩ := by
  have hs := verifyNonce_ok_store store now wallet nonce timestamp h
  unfold verifySignature
  simp only [h, hs, Bool.true_eq_false, if_false]

theorem verifySignature_eq_of_nonce_fail (c : Crypto) (store : NonceStore) (now : Int)
    (wallet signature nonce : String) (timestamp : Int)
    (h : (verifyNonce store now wallet nonce timestamp).ok = false) :
    verifySignature c store now wallet signature nonce timestamp =
      ⟨false, (verifyNonce store now wallet nonce timestamp).store⟩ := by
  unfold verifySignature
  simp only [h, if_true]

theorem verifySignature_ok_store (c : Crypto) (store : NonceStore) (now : Int)
    (wallet signature nonce : String) (timestamp : Int)
    (h : (verifySignature c store now wallet signature nonce timestamp).ok = true) :
    (verifySignature c store now wallet signature nonce timestamp).store =
      deleteNonce store wallet nonce := by
  by_cases hn : (verifyNonce store now wallet nonce timestamp).ok = true
  · rw [verifySignature_eq_of_nonce_ok c store now wallet signature nonce timestamp hn] at h ⊢
    cases hd : c.decodeSig signature with
    | none => rw [hd] at h; simp at h
    | some sigBytes =>
      rw [hd] at h
      cases hp : c.parsePk wallet with
      | none => rw [hp] at h; simp at h
      | some pkBytes =>
        rw [hp] at h
        by_cases hv : c.verify (challengeMessage wallet nonce timestamp) sigBytes pkBytes = true
        · simp [hv]
        · simp [hv] at h
  · rw [verifySignature_eq_of_nonce_fail c store now wallet signature nonce timestamp
      (Bool.eq_false_iff.mpr hn)] at h
    simp at h

/-- C4: a challenge verifies successfully at most once.  When a verification
run returns `true`, the stored challenge has already been deleted from the
returned store, so any second verification attempt with the same
(wallet, nonce) and timestamp — under any cryptographic behaviour, even a
correct signature — returns failure. -/
theorem verifySignature_single_use (c : Crypto) (store : NonceStore) (now : Int)
    (wallet signature nonce : String) (timestamp : Int)
    (h : (verifySignature c store now wallet signature nonce timestamp).ok = true) :
    (verifySignature c store now wallet signature nonce timestamp).store (wallet, nonce) = none ∧
    ∀ (c' : Crypto) (now' : Int) (signature' : String),
      (verifySignature c' (verifySignature c store now wallet signature nonce timestamp).store
        now' wallet signature' nonce timestamp).ok = false := by
  have hst := verifySignature_ok_store c store now wallet signature nonce timestamp h
  have hnone : (verifySignature c store now wallet signature nonce timestamp).store
      (wallet, nonce) = none := by
    rw [hst]; simp [deleteNonce]
  refine ⟨hnone, fun c' now' signature' => ?_⟩
  have hfail : (verifyNonce ((verifySignature c store now wallet signature nonce
      timestamp).store) now' wallet nonce timestamp).ok = false := by
    unfold verifyNonce
    rw [hnone]
  rw [verifySignature_eq_of_nonce_fail c' _ now' wallet signature' nonce timestamp hfail]

/-- C5: a stored challenge whose issuance timestamp lies more than five
minutes before the current time never verifies, whatever the cryptographic
outcome; and when the expiry is actually detected (the stored wallet and
timestamp match the supplied ones, so control reaches the expiry check), the
challenge is deleted from the store. -/
theorem verifySignature_expired_fails (c : Crypto) (store : NonceStore) (now : Int)
    (wallet signature nonce : String) (timestamp : Int) (st : StoredNonce)
    (hstored : store (wallet, nonce) = some st)
    (hexp : NONCE_EXPIRY_MS < now - st.timestamp) :
    (verifySignature c store now wallet signature nonce timestamp).ok = false ∧
    (st.wallet = wallet → st.timestamp = timestamp →
      (verifySignature c store now wallet signature nonce timestamp).store
        (wallet, nonce) = none) := by
  have hnf : (verifyNonce store now wallet nonce timestamp).ok = false := by
    cases hok : (verifyNonce store now wallet nonce timestamp).ok with
    | false => rfl
    | true =>
      rcases (verifyNonce_ok_iff store now wallet nonce timestamp).mp hok with
        ⟨st', hst', _, hts', hle⟩
      rw [hstored] at hst'
      cases hst'
      omega
  rw [verifySignature_eq_of_nonce_fail c store now wallet signature nonce timestamp hnf]
  refine ⟨rfl, fun hw ht => ?_⟩
  unfold verifyNonce
  rw [hstored]
  simp only [hw, ht, ne_eq, not_true_eq_false, if_false, ite_not]
  have : NONCE_EXPIRY_MS < now - timestamp := by omega
  simp [this, deleteNonce]

/-- C10: a verification attempt that fails for a reason other than expiry
(signature undecodable, wrong public key, or cryptographic verification
failure) returns `false` and leaves the store unchanged, so a later attempt
with the same (wallet, nonce), a correct signature and a time still inside
the five-minute window succeeds. -/
theorem verify_failure_preserves_challenge (c : Crypto) (store : NonceStore) (now : Int)
    (wallet signature nonce : String) (timestamp : Int)
    (hnonce : (verifyNonce store now wallet nonce timestamp).ok = true)
    (hfail : ∀ sigBytes pkBytes, c.decodeSig signature = some sigBytes →
      c.parsePk wallet = some pkBytes →
      c.verify (challengeMessage wallet nonce timestamp) sigBytes pkBytes = false) :
    verifySignature c store now wallet signature nonce timestamp = ⟨false, store⟩ ∧
    ∀ (c' : Crypto) (now' : Int) (signature' : String) (sigBytes pkBytes : List Nat),
      c'.decodeSig signature' = some sigBytes →
      c'.parsePk wallet = some pkBytes →
      c'.verify (challengeMessage wallet nonce timestamp) sigBytes pkBytes = true →
      now' - timestamp ≤ NONCE_EXPIRY_MS →
      (verifySignature c' store now' wallet signature' nonce timestamp).ok = true := by
  constructor
  · rw [verifySignature_eq_of_nonce_ok c store now wallet signature nonce timestamp hnonce]
    cases hd : c.decodeSig signature with
    | none => rfl
    | some sigBytes =>
      cases hp : c.parsePk wallet with
      | none => rfl
      | some pkBytes =>
        simp [hfail sigBytes pkBytes hd hp]
  · intro c' now' signature' sigBytes pkBytes hd hp hv hin
    rcases (verifyNonce_ok_iff store now wallet nonce timestamp).mp hnonce with
      ⟨st, hst, hw, hts, _⟩
    have hok' : (verifyNonce store now' wallet nonce timestamp).ok = true :=
      (verifyNonce_ok_iff store now' wallet nonce timestamp).mpr
        ⟨st, hst, hw, hts, hin⟩
    rw [verifySignature_eq_of_nonce_ok c' store now' wallet signature' nonce timestamp hok',
      hd, hp]
    simp [hv]

theorem verifySignature_single_use_witness :
    (verifySignature cryptoYes storeW 0 ("w") ("s") ("n") 0).store ("w", "n") = none ∧
    (verifySignature cryptoYes
      (verifySignature cryptoYes storeW 0 ("w") ("s") ("n") 0).store
      0 ("w") ("s") ("n") 0).ok = false :=
  ⟨(verifySignature_single_use cryptoYes storeW 0 ("w") ("s") ("n") 0 (by decide)).1,
   (verifySignature_single_use cryptoYes storeW 0 ("w") ("s") ("n") 0 (by decide)).2
     cryptoYes 0 ("s")⟩

theorem verifySignature_expired_fails_witness :
    (verifySignature cryptoYes storeW 300001 ("w") ("s") ("n") 0).ok = false ∧
    (verifySignature cryptoYes storeW 300001 ("w") ("s") ("n") 0).store ("w", "n") = none :=
  ⟨(verifySignature_expired_fails cryptoYes storeW 300001 ("w") ("s") ("n") 0
      ⟨"w", 0⟩ rfl (by decide)).1,
   (verifySignature_expired_fails cryptoYes storeW 300001 ("w") ("s") ("n") 0
      ⟨"w", 0⟩ rfl (by decide)).2 rfl rfl⟩

theorem verify_failure_preserves_challenge_witness :
    verifySignature cryptoNo storeW 0 ("w") ("s") ("n") 0 = ⟨false, storeW⟩ ∧
    (verifySignature cryptoYes storeW 1 ("w") ("s2") ("n") 0).ok = true :=
  ⟨(verify_failure_preserves_challenge cryptoNo storeW 0 ("w") ("s") ("n") 0
      (by decide) (fun _ _ _ _ => rfl)).1,
   (verify_failure_preserves_challenge cryptoNo storeW 0 ("w") ("s") ("n") 0
      (by decide) (fun _ _ _ _ => rfl)).2
     cryptoYes 1 ("s2") [] [] rfl rfl rfl (by decide)⟩

end Signature

namespace Payment

theorem senderFoundUpd_true (expected : ℚ) (sender : Option String) (key : String)
    (dec : ℚ) : senderFoundUpd expected sender key dec true = true := by
  unfold senderFoundUpd
  by_cases h : sender = some key
  · by_cases hle : expected ≤ dec
    · simp [h, hle]
    · simp [h, hle]
  · simp [h]

theorem verifyPayment_some (getTx : Commitment → Option TxData)
    (prices : DonationType → ℚ) (t : String) (dtype : DonationType)
    (wallet : String) :
    verifyPayment getTx prices (some t) dtype wallet =
      (if (verifyTransaction getTx (prices dtype) t (some wallet)).verified then
        ⟨true, some (prices dtype), none⟩
      else
        ⟨false, none, (verifyTransaction getTx (prices dtype) t (some wallet)).error⟩) :=
  rfl

theorem checkAccounts_reject (expected : ℚ) (recipient : String)
    (sender : Option String) (pre post : List ℚ) :
    ∀ (l : List (Option String)) (i : Nat) (senFound : Bool),
      (∀ j, l.get? j = some (some recipient) →
        solDelta pre post (i + j) < expected) →
      (checkAccounts expected recipient sender pre post l i false senFound).verified =
        false := by
  intro l
  induction l with
  | nil =>
    intro i senFound _
    simp [checkAccounts]
  | cons a rest ih =>
    intro i senFound h
    have hshift : ∀ j, rest.get? j = some (some recipient) →
        solDelta pre post ((i + 1) + j) < expected := by
      intro j hj
      have := h (j + 1) (by simpa using hj)
      have harith : i + (j + 1) = (i + 1) + j := by omega
      rwa [harith] at this
    cases a with
    | none =>
      simp only [checkAccounts]
      exact ih (i + 1) senFound hshift
    | some key =>
      by_cases hk : key = recipient
      · have h0 : solDelta pre post i < expected := by
          have := h 0 (by simp [hk])
          simpa using this
        simp only [checkAccounts]
        rw [if_pos hk, if_neg (not_le.mpr h0)]
      · simp only [checkAccounts]
        rw [if_neg hk]
        exact ih (i + 1) _ hshift

theorem checkAccounts_accept (expected : ℚ) (recipient sw : String)
    (pre post : List ℚ) :
    ∀ (l : List (Option String)) (i : Nat) (recFound senFound : Bool),
      (∀ j, l.get? j = some (some recipient) →
        expected ≤ solDelta pre post (i + j)) →
      (recFound = true ∨ ∃ j, l.get? j = some (some recipient)) →
      (senFound = true ∨ ∃ j, l.get? j = some (some sw) ∧
        expected ≤ solDecrease pre post (i + j)) →
      checkAccounts expected recipient (some sw) pre post l i recFound senFound =
        ⟨true, none⟩ := by
  intro l
  induction l with
  | nil =>
    intro i recFound senFound _ hrec hsen
    have hr : recFound = true := by
      rcases hrec with h | ⟨j, hj⟩
      · exact h
      · simp at hj
    have hs : senFound = true := by
      rcases hsen with h | ⟨j, hj, _⟩
      · exact h
      · simp at hj
    subst hr
    subst hs
    simp [checkAccounts]
  | cons a rest ih =>
    intro i recFound senFound hall hrec hsen
    have hallshift : ∀ j, rest.get? j = some (some recipient) →
        expected ≤ solDelta pre post ((i + 1) + j) := by
      intro j hj
      have := hall (j + 1) (by simpa using hj)
      have harith : i + (j + 1) = (i + 1) + j := by omega
      rwa [harith] at this
    cases a with
    | none =>
      have hrec' : recFound = true ∨ ∃ j, rest.get? j = some (some recipient) := by
        rcases hrec with h | ⟨j, hj⟩
        · exact Or.inl h
        · cases j with
          | zero => simp at hj
          | succ j => exact Or.inr ⟨j, by simpa using hj⟩
      have hsen' : senFound = true ∨ ∃ j, rest.get? j = some (some sw) ∧
          expected ≤ solDecrease pre post ((i + 1) + j) := by
        rcases hsen with h | ⟨j, hj, hd⟩
        · exact Or.inl h
        · cases j with
          | zero => simp at hj
          | succ j =>
            refine Or.inr ⟨j, by simpa using hj, ?_⟩
            have harith : i + (j + 1) = (i + 1) + j := by omega
            rwa [harith] at hd
      simp only [checkAccounts]
      exact ih (i + 1) recFound senFound hallshift hrec' hsen'
    | some key =>
      have hsen' : ∀ senFound2,
          (senFound2 = senderFoundUpd expected (some sw) key (solDecrease pre post i) senFound) →
          senFound2 = true ∨ ∃ j, rest.get? j = some (some sw) ∧
            expected ≤ solDecrease pre post ((i + 1) + j) := by
        intro senFound2 hupd
        rcases hsen with h | ⟨j, hj, hd⟩
        · subst h
          rw [hupd, senderFoundUpd_true]
          exact Or.inl rfl
        · cases j with
          | zero =>
            have hksw : key = sw := by simpa using hj
            have hdec : expected ≤ solDecrease pre post i := by simpa using hd
            subst hksw
            rw [hupd]
            unfold senderFoundUpd
            simp [hdec]
          | succ j =>
            refine Or.inr ⟨j, by simpa using hj, ?_⟩
            have harith : i + (j + 1) = (i + 1) + j := by omega
            rwa [harith] at hd
      by_cases hk : key = recipient
      · have hd : expected ≤ solDelta pre post i := by
          have := hall 0 (by simp [hk])
          simpa using this
        simp only [checkAccounts]
        rw [if_pos hk, if_pos hd]
        exact ih (i + 1) true _ hallshift (Or.inl rfl) (hsen' _ rfl)
      · have hrec' : recFound = true ∨ ∃ j, rest.get? j = some (some recipient) := by
          rcases hrec with h | ⟨j, hj⟩
          · exact Or.inl h
          · cases j with
            | zero =>
              exact absurd (by simpa using hj) hk
            | succ j => exact Or.inr ⟨j, by simpa using hj⟩
        simp only [checkAccounts]
        rw [if_neg hk]
        exact ih (i + 1) recFound _ hallshift hrec' (hsen' _ rfl)

/-- C2 is false as stated: a settled, error-free transaction whose treasury
balance increase equals the fixed price is still rejected, with reason
sender-mismatch, when the declared sender account shows no matching balance
decrease — `verifyPayment` always passes the wallet as expected sender, so
acceptance is not implied by a sufficient treasury increase alone. -/
theorem verifyPayment_sender_gate_cex :
    verifyPayment chainBoth DONATION_PRICES (some ("T")) DonationType.image ("W") =
      ⟨false, none, some .senderMismatch⟩ ∧
    DONATION_PRICES DonationType.image ≤ solDelta [0, 0] [30000000, 0] 0 ∧
    txSenderZero.meta = some ⟨none, [0, 0], [30000000, 0]⟩ := by
  refine ⟨?_, ?_, rfl⟩
  · rw [verifyPayment_some]
    norm_num [verifyPayment, verifyTransaction, chainBoth, txSenderZero,
      checkAccounts, solDelta, solDecrease, senderFoundUpd, DONATION_PRICES]
    simp
  · norm_num [solDelta, DONATION_PRICES]

/-- C2 (amended): for a settled, error-free transaction, `verifyPayment`
rejects whenever every treasury occurrence among the account keys shows a
balance increase strictly below the fixed price for the declared type; and it
accepts — reporting exactly the fixed price, never the raw delta — whenever
every treasury occurrence shows an increase of at least the fixed price, the
treasury occurs among the accounts, and the sender account occurs with a
balance decrease of at least the fixed price. -/
theorem verifyPayment_price_threshold (getTx : Commitment → Option TxData)
    (prices : DonationType → ℚ) (treasury wallet : String)
    (dtype : DonationType) (tx : TxData) (m : TxMeta)
    (hget : getTx Commitment.confirmed = some tx)
    (hmeta : tx.meta = some m)
    (herr : m.err = none) :
    ((∀ j, tx.accountKeys.get? j = some (some treasury) →
        solDelta m.preBalances m.postBalances j < prices dtype) →
      (verifyPayment getTx prices (some treasury) dtype wallet).verified = false) ∧
    ((∀ j, tx.accountKeys.get? j = some (some treasury) →
        prices dtype ≤ solDelta m.preBalances m.postBalances j) →
      (∃ j, tx.accountKeys.get? j = some (some treasury)) →
      (∃ j, tx.accountKeys.get? j = some (some wallet) ∧
        prices dtype ≤ solDecrease m.preBalances m.postBalances j) →
      verifyPayment getTx prices (some treasury) dtype wallet =
        ⟨true, some (prices dtype), none⟩) := by
  have hvt : verifyTransaction getTx (prices dtype) treasury (some wallet) =
      checkAccounts (prices dtype) treasury (some wallet) m.preBalances
        m.postBalances tx.accountKeys 0 false false := by
    unfold verifyTransaction
    rw [hget]
    simp [hmeta, herr]
  constructor
  · intro hall
    have hr := checkAccounts_reject (prices dtype) treasury (some wallet)
      m.preBalances m.postBalances tx.accountKeys 0 false
      (by intro j hj; simpa using hall j hj)
    rw [verifyPayment_some, hvt]
    simp [hr]
  · intro hall hex hsen
    have ha := checkAccounts_accept (prices dtype) treasury wallet
      m.preBalances m.postBalances tx.accountKeys 0 false false
      (by intro j hj; simpa using hall j hj)
      (Or.inr (by rcases hex with ⟨j, hj⟩; exact ⟨j, hj⟩))
      (Or.inr (by rcases hsen with ⟨j, hj, hd⟩; exact ⟨j, hj, by simpa using hd⟩))
    rw [verifyPayment_some, hvt, ha]
    rfl

theorem verifyPayment_price_threshold_witness :
    verifyPayment chainGood DONATION_PRICES (some ("T")) DonationType.image ("W") =
      ⟨true, some (DONATION_PRICES DonationType.image), none⟩ :=
  (verifyPayment_price_threshold chainGood DONATION_PRICES ("T") ("W")
      DonationType.image txGood ⟨none, [0, 40000000], [30000000, 0]⟩ rfl rfl rfl).2
    (by
      intro j hj
      match j with
      | 0 => norm_num [DONATION_PRICES, solDelta]
      | 1 => exact absurd hj (by decide)
      | (j + 2) => exact absurd hj (by simp [txGood]))
    ⟨0, by decide⟩
    ⟨1, by decide, by norm_num [DONATION_PRICES, solDecrease]⟩

/-- C8 is false in its commitment clause: `verifyTransaction` queries the
chain client at confirmed — not finalized — commitment.  With a client whose
transaction is visible at finalized commitment but not yet at confirmed
commitment, the verifier reports not-found, while the same transaction
verifies under a client that also serves it at confirmed commitment. -/
theorem verifyTransaction_commitment_cex :
    verifyTransaction chainFinalizedOnly (3 / 100) ("T") none =
      ⟨false, some .notFound⟩ ∧
    verifyTransaction chainBoth (3 / 100) ("T") none = ⟨true, none⟩ ∧
    chainFinalizedOnly Commitment.finalized = some txSenderZero ∧
    chainFinalizedOnly Commitment.confirmed = none := by
  refine ⟨?_, ?_, by decide, by decide⟩
  · simp [verifyTransaction, chainFinalizedOnly]
  · norm_num [verifyTransaction, chainBoth, txSenderZero, checkAccounts,
      solDelta, solDecrease, senderFoundUpd]
    decide

/-- C8 (amended): `verifyTransaction` fetches the settled transaction at
confirmed commitment (its result depends on the chain client only through the
confirmed view), and it distinguishes two rejections with distinct reasons:
transaction not found, versus transaction found but absent metadata or an
on-chain error. -/
theorem verifyTransaction_fetch_and_reasons (getTx getTx2 : Commitment → Option TxData)
    (expected : ℚ) (recipient : String) (sender : Option String) :
    (getTx Commitment.confirmed = getTx2 Commitment.confirmed →
      verifyTransaction getTx expected recipient sender =
        verifyTransaction getTx2 expected recipient sender) ∧
    (getTx Commitment.confirmed = none →
      verifyTransaction getTx expected recipient sender = ⟨false, some .notFound⟩) ∧
    (∀ tx, getTx Commitment.confirmed = some tx → tx.meta = none →
      verifyTransaction getTx expected recipient sender = ⟨false, some .txFailed⟩) ∧
    (∀ tx m, getTx Commitment.confirmed = some tx → tx.meta = some m →
      m.err.isSome = true →
      verifyTransaction getTx expected recipient sender = ⟨false, some .txFailed⟩) ∧
    VerifyError.message .notFound ≠ VerifyError.message .txFailed := by
  refine ⟨?_, ?_, ?_, ?_, by decide⟩
  · intro h
    unfold verifyTransaction
    rw [h]
  · intro h
    unfold verifyTransaction
    rw [h]
  · intro tx h hm
    unfold verifyTransaction
    rw [h]
    simp [hm]
  · intro tx m h hm he
    unfold verifyTransaction
    rw [h]
    simp [hm, he]

theorem verifyTransaction_fetch_and_reasons_witness :
    verifyTransaction chainFinalizedOnly (3 / 100) ("T") none =
      ⟨false, some .notFound⟩ ∧
    VerifyError.message .notFound ≠ VerifyError.message .txFailed :=
  ⟨(verifyTransaction_fetch_and_reasons chainFinalizedOnly chainBoth (3 / 100)
      ("T") none).2.1 (by decide),
   (verifyTransaction_fetch_and_reasons chainFinalizedOnly chainBoth (3 / 100)
      ("T") none).2.2.2.2⟩

end Payment

namespace Donate

/-- C3: a donation submission whose transaction signature is already present
at the fast-path existence check returns the 409 duplicate response and
changes nothing; and when the fast-path check misses but the signature is
present at insert time, the uniqueness-constraint conflict is translated into
the very same 409 duplicate response, the ledger is unchanged, and exactly
one record for the signature remains (given the storage uniqueness
invariant).  The duplicate response carries HTTP status 409. -/
theorem donate_duplicate_contract (dbCheck dbIns : Ledger)
    (prices : DonationType → ℚ) (pv : Payment.PaymentOutcome)
    (validateText : String → Option String) (wallet : String)
    (username : Option String) (dtype : DonationType) (content txHash : String)
    (huniq : dbIns.countP (fun r => r.txHash == txHash) ≤ 1) :
    (dbCheck.any (fun r => r.txHash == txHash) = true →
      donateCore dbCheck dbIns prices pv validateText wallet username dtype
        content txHash = (.duplicate, dbIns)) ∧
    (dbCheck.any (fun r => r.txHash == txHash) = false →
      dbIns.any (fun r => r.txHash == txHash) = true →
      pv.verified = true →
      (dtype = .text → (validateText content).isSome = true) →
      donateCore dbCheck dbIns prices pv validateText wallet username dtype
        content txHash = (.duplicate, dbIns) ∧
      dbIns.countP (fun r => r.txHash == txHash) = 1) ∧
    DonateResponse.duplicate.status = 409 := by
  refine ⟨?_, ?_, rfl⟩
  · intro h
    unfold donateCore
    simp [h]
  · intro hc hi hv htext
    have hcount : dbIns.countP (fun r => r.txHash == txHash) = 1 := by
      have hpos : 0 < dbIns.countP (fun r => r.txHash == txHash) := by
        rcases List.any_eq_true.mp hi with ⟨r, hr, hp⟩
        exact List.countP_pos_iff.mpr ⟨r, hr, hp⟩
      omega
    refine ⟨?_, hcount⟩
    unfold donateCore
    rw [hc]
    simp only [Bool.false_eq_true, if_false, hv, Bool.true_eq_false]
    by_cases hdt : dtype = DonationType.text
    · rcases Option.isSome_iff_exists.mp (htext hdt) with ⟨s, hs⟩
      simp [hdt, hs, insertUnique, hi]
    · simp [hdt, insertUnique, hi]

theorem donate_duplicate_contract_witness :
    donateCore [] [rowSig1] Payment.DONATION_PRICES ⟨true, some (1 / 100), none⟩
        (fun s => some s) ("W") (some ("alice")) DonationType.text ("hi") ("sig1")
      = (.duplicate, [rowSig1]) ∧
    List.countP (fun r => r.txHash == "sig1") [rowSig1] = 1 :=
  (donate_duplicate_contract [] [rowSig1] Payment.DONATION_PRICES
      ⟨true, some (1 / 100), none⟩ (fun s => some s) ("W") (some ("alice"))
      DonationType.text ("hi") ("sig1") (by decide)).2.1
    rfl (by decide) rfl (fun _ => rfl)

end Donate

namespace DonationConfirm

/-- C1 fails on the `POST /donation/confirm` path: the stored price is the
client-declared amount — two confirm submissions identical except for the
declared amount (0.001 SOL versus 5 SOL) produce rows with different stored
prices, and no payment verifier output is involved in the stored value. -/
theorem donation_confirm_stores_client_amount :
    (confirmInsertRow ("W") ("alice") none none DonationType.text (1 / 1000)
        ("sig1")).price = 1 / 1000 ∧
    (confirmInsertRow ("W") ("alice") none none DonationType.text 5
        ("sig1")).price = 5 ∧
    ((1 : ℚ) / 1000) ≠ 5 := by
  refine ⟨rfl, rfl, by norm_num⟩

end DonationConfirm

namespace Overlay

/-- C6 is false in its disconnect clause: an unauthenticated connection that
sends a frame on which JSON parsing throws — a frame that is not an auth
frame — is not disconnected; the catch of overlaySocket.ts lines 70-72 only
logs, issues no close, and leaves the connection unchanged. -/
theorem malformed_frame_not_disconnected_cex :
    freshClient.isAuthenticated = false ∧
    (handleMessage ("k") freshClient ClientFrame.malformed).closeCalled = false ∧
    (handleMessage ("k") freshClient ClientFrame.malformed).conn = freshClient := by
  decide

/-- C6 (amended): a broadcast event — in particular a DONATION event — is
delivered only to connections whose auth flag is set, in every hub state; and
an unauthenticated connection that sends any parsed frame other than an auth
frame is disconnected.  Only frames that fail JSON parsing are ignored
without disconnection. -/
theorem broadcast_auth_gate (clients : List Client) (secret : String)
    (c : Client) (ftype key : Option String) :
    (∀ d ∈ (broadcastToOverlay clients).1, d.isAuthenticated = true) ∧
    (c.isAuthenticated = false → ftype ≠ some ("auth") →
      (handleMessage secret c (ClientFrame.parsed ftype key)).closeCalled = true) := by
  constructor
  · intro d hd
    have hp := (List.mem_filter.mp hd).2
    have := (Bool.and_eq_true _ _).mp hp
    have ha := (Bool.and_eq_true _ _).mp this.1
    simpa [sendAttempted] using ha.1
  · intro hauth hna
    unfold handleMessage
    simp [hna, hauth]

theorem broadcast_auth_gate_witness :
    authOpen.isAuthenticated = true ∧
    (handleMessage ("k") freshClient
      (ClientFrame.parsed (some ("ping")) none)).closeCalled = true :=
  ⟨(broadcast_auth_gate [authOpen] ("k") freshClient (some ("ping")) none).1
      authOpen (by decide),
   (broadcast_auth_gate [authOpen] ("k") freshClient (some ("ping")) none).2
      rfl (by decide)⟩

/-- C9 is false in its not-open clause: an authenticated connection whose
transport is found not open during the broadcast is skipped, not removed —
after the broadcast it is still in the connected set (it is removed only
later by the close, error or ping-liveness handlers). -/
theorem stale_connection_not_removed_cex :
    staleClient.isAuthenticated = true ∧
    staleClient.readyState ≠ WS_OPEN ∧
    (broadcastToOverlay [staleClient]).2 = [staleClient] ∧
    (broadcastToOverlay [staleClient]).1 = [] := by
  decide

/-- C9 (amended): after a broadcast, every connection that threw on send has
been removed from the connected set; connections that were sent to
successfully remain in the set, and connections skipped because their
transport was not open (or because they were unauthenticated) also remain in
the set without being delivered to. -/
theorem broadcast_set_update (clients : List Client) :
    (∀ c ∈ clients, sendAttempted c = true → c.sendThrows = true →
      c ∉ (broadcastToOverlay clients).2) ∧
    (∀ c ∈ clients, sendAttempted c = true → c.sendThrows = false →
      c ∈ (broadcastToOverlay clients).2 ∧ c ∈ (broadcastToOverlay clients).1) ∧
    (∀ c ∈ clients, sendAttempted c = false →
      c ∈ (broadcastToOverlay clients).2 ∧ c ∉ (broadcastToOverlay clients).1) := by
  refine ⟨?_, ?_, ?_⟩
  · intro c hc h1 h2 hmem
    have hp := (List.mem_filter.mp hmem).2
    simp [h1, h2] at hp
  · intro c hc h1 h2
    constructor
    · exact List.mem_filter.mpr ⟨hc, by simp [h1, h2]⟩
    · exact List.mem_filter.mpr ⟨hc, by simp [h1, h2]⟩
  · intro c hc h1
    constructor
    · exact List.mem_filter.mpr ⟨hc, by simp [h1]⟩
    · intro hmem
      have hp := (List.mem_filter.mp hmem).2
      simp [h1] at hp

theorem broadcast_set_update_witness :
    throwingClient ∉ (broadcastToOverlay [throwingClient, authOpen, staleClient]).2 ∧
    authOpen ∈ (broadcastToOverlay [throwingClient, authOpen, staleClient]).2 ∧
    authOpen ∈ (broadcastToOverlay [throwingClient, authOpen, staleClient]).1 ∧
    staleClient ∈ (broadcastToOverlay [throwingClient, authOpen, staleClient]).2 :=
  ⟨(broadcast_set_update [throwingClient, authOpen, staleClient]).1
      throwingClient (by decide) (by decide) (by decide),
   ((broadcast_set_update [throwingClient, authOpen, staleClient]).2.1
      authOpen (by decide) (by decide) (by decide)).1,
   ((broadcast_set_update [throwingClient, authOpen, staleClient]).2.1
      authOpen (by decide) (by decide) (by decide)).2,
   ((broadcast_set_update [throwingClient, authOpen, staleClient]).2.2
      staleClient (by decide) (by decide)).1⟩

end Overlay

namespace Relay

theorem confirmGo_polls_le (poll1 : Nat → PollOutcome) :
    ∀ (remaining attempt : Nat),
      (confirmGo poll1 attempt remaining).2.polls ≤ remaining := by
  intro remaining
  induction remaining with
  | zero =>
    intro attempt
    exact Nat.le_refl 0
  | succ r ih =>
    intro attempt
    unfold confirmGo
    cases hpoll : poll1 attempt with
    | success => simp
    | chainErr e => simp
    | netError m =>
      by_cases hr : r = 0
      · simp [hr]
      · simp only [hr, if_false]
        have h := ih (attempt + 1)
        omega

theorem confirmGo_delays_eq (poll1 : Nat → PollOutcome) :
    ∀ (remaining attempt : Nat) (d : Nat),
      d ∈ (confirmGo poll1 attempt remaining).2.delays → d = 2000 := by
  intro remaining
  induction remaining with
  | zero =>
    intro attempt d hd
    simp [confirmGo] at hd
  | succ r ih =>
    intro attempt d hd
    unfold confirmGo at hd
    cases hpoll : poll1 attempt with
    | success =>
      rw [hpoll] at hd
      simp at hd
    | chainErr e =>
      rw [hpoll] at hd
      simp at hd
    | netError m =>
      rw [hpoll] at hd
      by_cases hr : r = 0
      · simp [hr] at hd
      · simp only [hr, if_false] at hd
        rcases List.mem_cons.mp (by simpa using hd) with h | h
        · exact h
        · exact ih (attempt + 1) d h

theorem confirmGo_chainErr (poll1 : Nat → PollOutcome) :
    ∀ (k attempt remaining : Nat) (e : String), k < remaining →
      (∀ q, q < k → ∃ m, poll1 (attempt + q) = PollOutcome.netError m) →
      poll1 (attempt + k) = PollOutcome.chainErr e →
      confirmGo poll1 attempt remaining =
        (⟨false, some ("Transaction failed: " ++ e)⟩,
         ⟨k + 1, List.replicate k 2000⟩) := by
  intro k
  induction k with
  | zero =>
    intro attempt remaining e hlt _ hp
    cases remaining with
    | zero => omega
    | succ r =>
      rw [show attempt + 0 = attempt from rfl] at hp
      unfold confirmGo
      rw [hp]
      simp
  | succ k ih =>
    intro attempt remaining e hlt hnet hp
    cases remaining with
    | zero => omega
    | succ r =>
      rcases hnet 0 (by omega) with ⟨m, hm⟩
      rw [show attempt + 0 = attempt from rfl] at hm
      have hr : ¬(r = 0) := by omega
      have hrec := ih (attempt + 1) r e (by omega)
        (fun q hq => by
          rcases hnet (q + 1) (by omega) with ⟨m2, hm2⟩
          refine ⟨m2, ?_⟩
          rw [show attempt + 1 + q = attempt + (q + 1) by omega]
          exact hm2)
        (by
          rw [show attempt + 1 + k = attempt + (k + 1) by omega]
          exact hp)
      unfold confirmGo
      rw [hm]
      simp only [hr, if_false, hrec]
      simp [List.replicate_succ]

theorem attemptRun_confirm_trace (deser : Except String Unit)
    (bc : Nat → BroadcastOutcome) (poll : Nat → Nat → PollOutcome)
    (a : Nat) (ct : ConfirmTrace)
    (h : (attemptRun deser bc poll a).2.2 = some ct) :
    ct.polls ≤ 10 ∧ ∀ d ∈ ct.delays, d = 2000 := by
  unfold attemptRun at h
  cases deser with
  | error e => simp at h
  | ok u =>
    cases hbc : bc a with
    | throws msg =>
      rw [hbc] at h
      simp at h
    | ok signature =>
      rw [hbc] at h
      have hct : ct = (confirmTransactionWithRetry (poll a)).2 := by
        by_cases hc : (confirmTransactionWithRetry (poll a)).1.confirmed = true
        · simp [hc] at h
          exact h.symm
        · simp [hc] at h
          exact h.symm
      rw [hct]
      unfold confirmTransactionWithRetry
      exact ⟨confirmGo_polls_le (poll a) 10 1, confirmGo_delays_eq (poll a) 10 1⟩

theorem relayGo_attempts_le (deser : Except String Unit)
    (bc : Nat → BroadcastOutcome) (poll : Nat → Nat → PollOutcome) :
    ∀ (fuel attempt : Nat) (le : Option String),
      (relayGo deser bc poll attempt fuel le).2.attempts ≤ fuel := by
  intro fuel
  induction fuel with
  | zero =>
    intro attempt le
    exact Nat.le_refl 0
  | succ r ih =>
    intro attempt le
    unfold relayGo
    rcases hA : attemptRun deser bc poll attempt with ⟨rr, b, t⟩
    cases rr with
    | ok s => simp
    | error e =>
      by_cases hr : r = 0
      · simp [hr]
      · simp only [hr, if_false]
        have h := ih (attempt + 1) (some e)
        omega

theorem relayGo_broadcasts_le (deser : Except String Unit)
    (bc : Nat → BroadcastOutcome) (poll : Nat → Nat → PollOutcome) :
    ∀ (fuel attempt : Nat) (le : Option String),
      (relayGo deser bc poll attempt fuel le).2.broadcasts ≤ fuel := by
  intro fuel
  induction fuel with
  | zero =>
    intro attempt le
    exact Nat.le_refl 0
  | succ r ih =>
    intro attempt le
    unfold relayGo
    rcases hA : attemptRun deser bc poll attempt with ⟨rr, b, t⟩
    cases rr with
    | ok s =>
      cases b <;> simp
    | error e =>
      by_cases hr : r = 0
      · cases b <;> simp [hr]
      · simp only [hr, if_false]
        have h := ih (attempt + 1) (some e)
        cases b <;> simp <;> omega

theorem relayGo_confirms_mem (deser : Except String Unit)
    (bc : Nat → BroadcastOutcome) (poll : Nat → Nat → PollOutcome) :
    ∀ (fuel attempt : Nat) (le : Option String) (ct : ConfirmTrace),
      ct ∈ (relayGo deser bc poll attempt fuel le).2.confirms →
      ∃ a, (attemptRun deser bc poll a).2.2 = some ct := by
  intro fuel
  induction fuel with
  | zero =>
    intro attempt le ct hct
    simp [relayGo] at hct
  | succ r ih =>
    intro attempt le ct hct
    unfold relayGo at hct
    rcases hA : attemptRun deser bc poll attempt with ⟨rr, b, t⟩
    rw [hA] at hct
    cases rr with
    | ok s =>
      simp at hct
      refine ⟨attempt, ?_⟩
      rw [hA]
      simpa using hct
    | error e =>
      by_cases hr : r = 0
      · simp [hr] at hct
        refine ⟨attempt, ?_⟩
        rw [hA]
        simpa using hct
      · simp [hr] at hct
        rcases hct with h | h
        · refine ⟨attempt, ?_⟩
          rw [hA]
          simpa using h
        · exact ih (attempt + 1) (some e) ct h

theorem relayGo_attempts_pos (deser : Except String Unit)
    (bc : Nat → BroadcastOutcome) (poll : Nat → Nat → PollOutcome)
    (r attempt : Nat) (le : Option String) :
    1 ≤ (relayGo deser bc poll attempt (r + 1) le).2.attempts := by
  unfold relayGo
  rcases hA : attemptRun deser bc poll attempt with ⟨rr, b, t⟩
  cases rr with
  | ok s => simp
  | error e =>
    by_cases hr : r = 0
    · simp [hr]
    · simp only [hr, if_false]
      omega

theorem relayGo_backoffs_eq (deser : Except String Unit)
    (bc : Nat → BroadcastOutcome) (poll : Nat → Nat → PollOutcome) :
    ∀ (fuel attempt : Nat) (le : Option String),
      (relayGo deser bc poll attempt fuel le).2.backoffs =
        (List.range ((relayGo deser bc poll attempt fuel le).2.attempts - 1)).map
          (fun i => 1000 * (attempt + i)) := by
  intro fuel
  induction fuel with
  | zero =>
    intro attempt le
    simp [relayGo]
  | succ r ih =>
    intro attempt le
    unfold relayGo
    rcases hA : attemptRun deser bc poll attempt with ⟨rr, b, t⟩
    cases rr with
    | ok s => simp
    | error e =>
      by_cases hr : r = 0
      · simp [hr]
      · obtain ⟨r2, rfl⟩ : ∃ r2, r = r2 + 1 := ⟨r - 1, by omega⟩
        simp only [hr, if_false]
        have h := ih (attempt + 1) (some e)
        have hpos := relayGo_attempts_pos deser bc poll r2 (attempt + 1) (some e)
        obtain ⟨n, hn⟩ : ∃ n,
            (relayGo deser bc poll (attempt + 1) (r2 + 1) (some e)).2.attempts
              = n + 1 :=
          ⟨(relayGo deser bc poll (attempt + 1) (r2 + 1) (some e)).2.attempts - 1,
           by omega⟩
        rw [hn] at h
        simp only [h, hn, Nat.add_sub_cancel, List.range_succ_eq_map,
          List.map_cons, List.map_map]
        rw [show 1000 * (attempt + 0) = 1000 * attempt by omega]
        exact congrArg (List.cons (1000 * attempt))
          (List.map_congr_left (fun i _ => by
            simp only [Function.comp_apply]
            omega))

theorem relayGo_first_ok (deser : Except String Unit)
    (bc : Nat → BroadcastOutcome) (poll : Nat → Nat → PollOutcome)
    (r attempt : Nat) (le : Option String) (s : String) (b : Bool)
    (t : Option ConfirmTrace)
    (hA : attemptRun deser bc poll attempt = (Except.ok s, b, t)) :
    relayGo deser bc poll attempt (r + 1) le =
      (Except.ok (s, true), ⟨1, if b then 1 else 0, t.toList, []⟩) := by
  unfold relayGo
  rw [hA]

theorem relayGo_step_err (deser : Except String Unit)
    (bc : Nat → BroadcastOutcome) (poll : Nat → Nat → PollOutcome)
    (r attempt : Nat) (le : Option String) (e : String) (b : Bool)
    (t : Option ConfirmTrace)
    (hA : attemptRun deser bc poll attempt = (Except.error e, b, t))
    (hr : r ≠ 0) :
    relayGo deser bc poll attempt (r + 1) le =
      ((relayGo deser bc poll (attempt + 1) r (some e)).1,
       ⟨(relayGo deser bc poll (attempt + 1) r (some e)).2.attempts + 1,
        (relayGo deser bc poll (attempt + 1) r (some e)).2.broadcasts +
          (if b then 1 else 0),
        t.toList ++ (relayGo deser bc poll (attempt + 1) r (some e)).2.confirms,
        1000 * attempt ::
          (relayGo deser bc poll (attempt + 1) r (some e)).2.backoffs⟩) := by
  generalize hG : relayGo deser bc poll (attempt + 1) r (some e) = inner
  unfold relayGo
  rw [hA]
  simp only [hr, if_false]
  rw [hG]

theorem relayGo_last_err (deser : Except String Unit)
    (bc : Nat → BroadcastOutcome) (poll : Nat → Nat → PollOutcome)
    (attempt : Nat) (le : Option String) (e : String) (b : Bool)
    (t : Option ConfirmTrace)
    (hA : attemptRun deser bc poll attempt = (Except.error e, b, t)) :
    relayGo deser bc poll attempt 1 le =
      (Except.error e, ⟨1, if b then 1 else 0, t.toList, []⟩) := by
  show relayGo deser bc poll attempt (0 + 1) le = _
  unfold relayGo
  rw [hA]
  simp


/-- C7: `sendSignedTransaction` performs at most 3 broadcast attempts with a
backoff of attempt-index times 1s between failed attempts; within each
attempt confirmation is polled at most 10 times with a fixed 2s delay; an
on-chain error in a confirmation result terminates that attempt's confirm
loop immediately; the first confirmed attempt returns immediately with no
further attempts; and when all 3 attempts fail, the error of the last
attempt is propagated to the caller rather than a success value. -/
theorem sendSignedTransaction_retry_contract (deser : Except String Unit)
    (bc : Nat → BroadcastOutcome) (poll : Nat → Nat → PollOutcome) :
    (sendSignedTransaction deser bc poll).2.attempts ≤ 3 ∧
    (sendSignedTransaction deser bc poll).2.broadcasts ≤ 3 ∧
    (∀ ct ∈ (sendSignedTransaction deser bc poll).2.confirms,
      ct.polls ≤ 10 ∧ ∀ d ∈ ct.delays, d = 2000) ∧
    (sendSignedTransaction deser bc poll).2.backoffs =
      (List.range ((sendSignedTransaction deser bc poll).2.attempts - 1)).map
        (fun i => 1000 * (i + 1)) ∧
    (∀ s, attemptResult deser bc poll 1 = Except.ok s →
      (sendSignedTransaction deser bc poll).1 = Except.ok (s, true) ∧
      (sendSignedTransaction deser bc poll).2.attempts = 1) ∧
    (∀ e1 s, attemptResult deser bc poll 1 = Except.error e1 →
      attemptResult deser bc poll 2 = Except.ok s →
      (sendSignedTransaction deser bc poll).1 = Except.ok (s, true) ∧
      (sendSignedTransaction deser bc poll).2.attempts = 2) ∧
    (∀ e1 e2 s, attemptResult deser bc poll 1 = Except.error e1 →
      attemptResult deser bc poll 2 = Except.error e2 →
      attemptResult deser bc poll 3 = Except.ok s →
      (sendSignedTransaction deser bc poll).1 = Except.ok (s, true) ∧
      (sendSignedTransaction deser bc poll).2.attempts = 3) ∧
    (∀ e1 e2 e3, attemptResult deser bc poll 1 = Except.error e1 →
      attemptResult deser bc poll 2 = Except.error e2 →
      attemptResult deser bc poll 3 = Except.error e3 →
      (sendSignedTransaction deser bc poll).1 = Except.error e3) ∧
    (∀ (poll1 : Nat → PollOutcome) (k : Nat) (e : String), k < 10 →
      (∀ q, q < k → ∃ m, poll1 (1 + q) = PollOutcome.netError m) →
      poll1 (1 + k) = PollOutcome.chainErr e →
      confirmTransactionWithRetry poll1 =
        (⟨false, some ("Transaction failed: " ++ e)⟩,
         ⟨k + 1, List.replicate k 2000⟩)) := by
  have hsend : sendSignedTransaction deser bc poll = relayGo deser bc poll 1 3 none := rfl
  refine ⟨?_, ?_, ?_, ?_, ?_, ?_, ?_, ?_, ?_⟩
  · rw [hsend]
    exact relayGo_attempts_le deser bc poll 3 1 none
  · rw [hsend]
    exact relayGo_broadcasts_le deser bc poll 3 1 none
  · intro ct hct
    rw [hsend] at hct
    rcases relayGo_confirms_mem deser bc poll 3 1 none ct hct with ⟨a, ha⟩
    exact attemptRun_confirm_trace deser bc poll a ct ha
  · rw [hsend, relayGo_backoffs_eq deser bc poll 3 1 none]
    exact List.map_congr_left (fun i _ => by omega)
  · intro s hs
    rcases hA1 : attemptRun deser bc poll 1 with ⟨r1, b1, t1⟩
    unfold attemptResult at hs
    rw [hA1] at hs
    simp at hs
    subst hs
    have hok := relayGo_first_ok deser bc poll 2 1 none s b1 t1 hA1
    norm_num at hok
    rw [hsend, hok]
    exact ⟨rfl, rfl⟩
  · intro e1 s h1 h2
    rcases hA1 : attemptRun deser bc poll 1 with ⟨r1, b1, t1⟩
    unfold attemptResult at h1 h2
    rw [hA1] at h1
    simp at h1
    subst h1
    rcases hA2 : attemptRun deser bc poll 2 with ⟨r2, b2, t2⟩
    rw [hA2] at h2
    simp at h2
    subst h2
    have hstep := relayGo_step_err deser bc poll 2 1 none e1 b1 t1 hA1 (by omega)
    norm_num at hstep
    have hok := relayGo_first_ok deser bc poll 1 2 (some e1) s b2 t2 hA2
    norm_num at hok
    rw [hsend, hstep, hok]
    exact ⟨rfl, rfl⟩
  · intro e1 e2 s h1 h2 h3
    rcases hA1 : attemptRun deser bc poll 1 with ⟨r1, b1, t1⟩
    unfold attemptResult at h1 h2 h3
    rw [hA1] at h1
    simp at h1
    subst h1
    rcases hA2 : attemptRun deser bc poll 2 with ⟨r2, b2, t2⟩
    rw [hA2] at h2
    simp at h2
    subst h2
    rcases hA3 : attemptRun deser bc poll 3 with ⟨r3, b3, t3⟩
    rw [hA3] at h3
    simp at h3
    subst h3
    have hstep1 := relayGo_step_err deser bc poll 2 1 none e1 b1 t1 hA1 (by omega)
    norm_num at hstep1
    have hstep2 := relayGo_step_err deser bc poll 1 2 (some e1) e2 b2 t2 hA2 (by omega)
    norm_num at hstep2
    have hok := relayGo_first_ok deser bc poll 0 3 (some e2) s b3 t3 hA3
    norm_num at hok
    rw [hsend, hstep1, hstep2, hok]
    exact ⟨rfl, rfl⟩
  · intro e1 e2 e3 h1 h2 h3
    rcases hA1 : attemptRun deser bc poll 1 with ⟨r1, b1, t1⟩
    unfold attemptResult at h1 h2 h3
    rw [hA1] at h1
    simp at h1
    subst h1
    rcases hA2 : attemptRun deser bc poll 2 with ⟨r2, b2, t2⟩
    rw [hA2] at h2
    simp at h2
    subst h2
    rcases hA3 : attemptRun deser bc poll 3 with ⟨r3, b3, t3⟩
    rw [hA3] at h3
    simp at h3
    subst h3
    have hstep1 := relayGo_step_err deser bc poll 2 1 none e1 b1 t1 hA1 (by omega)
    norm_num at hstep1
    have hstep2 := relayGo_step_err deser bc poll 1 2 (some e1) e2 b2 t2 hA2 (by omega)
    norm_num at hstep2
    have hlast := relayGo_last_err deser bc poll 3 (some e2) e3 b3 t3 hA3
    rw [hsend, hstep1, hstep2, hlast]
  · intro poll1 k e hk hnet hp
    exact confirmGo_chainErr poll1 k 1 10 e hk hnet hp

theorem sendSignedTransaction_retry_contract_witness :
    (sendSignedTransaction (Except.ok ()) bcOk pollOk).1 =
      Except.ok (("sig"), true) ∧
    (sendSignedTransaction (Except.ok ()) bcOk pollOk).2.attempts = 1 ∧
    (sendSignedTransaction (Except.ok ()) bcOk pollOk).2.attempts ≤ 3 :=
  ⟨((sendSignedTransaction_retry_contract (Except.ok ()) bcOk pollOk).2.2.2.2.1
      ("sig") rfl).1,
   ((sendSignedTransaction_retry_contract (Except.ok ()) bcOk pollOk).2.2.2.2.1
      ("sig") rfl).2,
   (sendSignedTransaction_retry_contract (Except.ok ()) bcOk pollOk).1⟩

end Relay
